import Mathlib

/-!
Verification of the `address-alias` storage layer (`src/state.rs`) and of the
registry core described by the specification.

Modelling conventions:
* Rust byte strings (`Vec<u8>`, `&[u8]`) are `List Nat`; a Rust `String` and a
  `HumanAddr` are represented by the list of their UTF-8 bytes.
* The flat byte-keyed store (`cosmwasm_std::Storage`) is a function
  `Bytes → Option Bytes`; `PrefixedStorage` / `ReadonlyPrefixedStorage`
  prepend the length-prefixed namespace to every key, as
  `cosmwasm_storage::to_length_prefixed` does (two big-endian length bytes).
* `Bincode2` fixed-size little-endian encoding: a `String` or `Vec<u8>` is an
  8-byte little-endian `u64` length followed by the raw bytes; an `Option` is
  a one-byte tag (0 = `None`, 1 = `Some`); a struct is the concatenation of
  its fields; a newtype (`HumanAddr`) is its inner value.  Decoding a `String`
  in the model does not re-validate UTF-8 (every value written by this code is
  the encoding of a genuine string, so validation never fails on them).
* A Rust `StdResult` is `Except StdError`; a value discarded with `.ok()` is
  `Except.toOption`; a `.unwrap()` that can panic is modelled by keeping the
  outer `Option`, where `none` is the panic.
-/

namespace AddressAlias

/-- Byte strings: Rust `Vec<u8>` / `&[u8]` as lists of naturals. -/
abbrev Bytes := List Nat

/-- The flat byte-keyed store underneath both indexes. -/
abbrev Storage := Bytes → Option Bytes

/-- The store with no entries. -/
def emptyStorage : Storage := fun _ => none

/-- `storage.set(key, value)` primitive of the backing store. -/
def Storage.set (st : Storage) (key v : Bytes) : Storage :=
  fun k2 => if k2 = key then some v else st k2

/-- `storage.remove(key)` primitive of the backing store. -/
def Storage.del (st : Storage) (key : Bytes) : Storage :=
  fun k2 => if k2 = key then none else st k2

/-- Rust `StdError`, restricted to the variants this code can produce. -/
inductive StdError where
  | notFound (kind : String)
  | parseErr (target : String) (msg : String)
  | serializeErr (source : String) (msg : String)
  deriving DecidableEq, Repr

/-- Little-endian fixed 8-byte encoding of a `u64`, as Bincode2 writes
lengths. -/
def u64le (n : Nat) : Bytes :=
  [n % 256, n / 256 % 256, n / 65536 % 256, n / 16777216 % 256,
   n / 4294967296 % 256, n / 1099511627776 % 256,
   n / 281474976710656 % 256, n / 72057594037927936 % 256]

/-- Reads a little-endian `u64` from the front of a byte string. -/
def readU64le : Bytes → Option (Nat × Bytes)
  | b0 :: b1 :: b2 :: b3 :: b4 :: b5 :: b6 :: b7 :: rest =>
      some (b0 + b1 * 256 + b2 * 65536 + b3 * 16777216 + b4 * 4294967296 +
            b5 * 1099511627776 + b6 * 281474976710656 +
            b7 * 72057594037927936, rest)
  | _ => none

/-- Bincode2 encoding of a `Vec<u8>` or `String`: length then raw bytes. -/
def encBytes (s : Bytes) : Bytes := u64le s.length ++ s

/-- Bincode2 decoding of a `Vec<u8>` or `String` from the front of a byte
string. -/
def readBytes (bs : Bytes) : Option (Bytes × Bytes) :=
  match readU64le bs with
  | some (n, rest) =>
      if n ≤ rest.length then some (rest.take n, rest.drop n) else none
  | none => none

/-- Bincode2 encoding of an `Option<String>`: tag byte then payload. -/
def encOptBytes : Option Bytes → Bytes
  | none => [0]
  | some s => 1 :: encBytes s

/-- Bincode2 decoding of an `Option<String>` from the front of a byte
string. -/
def readOptBytes : Bytes → Option (Option Bytes × Bytes)
  | 0 :: rest => some (none, rest)
  | 1 :: rest => (readBytes rest).map (fun p => (some p.1, p.2))
  | _ => none

/-- The stored record of the Alias Index (`state.rs` `struct Alias`):
`human_address` is the owner (a `HumanAddr`, i.e. a string of bytes),
`avatar_url` the optional avatar reference. -/
structure Alias where
  human_address : Bytes
  avatar_url : Option Bytes
  deriving DecidableEq, Repr

/-- Bincode2 encoding of an `Alias`: the two fields in order, the newtype
`HumanAddr` encoded as its inner string. -/
def encAlias (a : Alias) : Bytes :=
  encBytes a.human_address ++ encOptBytes a.avatar_url

/-- Bincode2 decoding of an `Alias` from the front of a byte string. -/
def readAlias (bs : Bytes) : Option (Alias × Bytes) :=
  match readBytes bs with
  | some (h, r1) =>
      match readOptBytes r1 with
      | some (av, r2) => some (Alias.mk h av, r2)
      | none => none
  | none => none

/-- A serializer/deserializer pair with the `type_name` used for `NotFound`
diagnostics: the shape of `secret_toolkit`'s `Serde` bound instantiated at a
record type. -/
structure Codec (α : Type) where
  typeName : String
  serialize : α → Except StdError Bytes
  deserialize : Bytes → Except StdError α

/-- `Bincode2` at `T = Alias`. -/
def aliasCodec : Codec Alias :=
  Codec.mk "address_alias::state::Alias"
    (fun a => Except.ok (encAlias a))
    (fun bs =>
      match readAlias bs with
      | some p => Except.ok p.1
      | none => Except.error (StdError.parseErr "address_alias::state::Alias"
          "invalid Bincode2 data"))

/-- `Bincode2` at `T = String` (used by the Owner Index writes). -/
def stringCodec : Codec Bytes :=
  Codec.mk "alloc::string::String"
    (fun s => Except.ok (encBytes s))
    (fun bs =>
      match readBytes bs with
      | some p => Except.ok p.1
      | none => Except.error (StdError.parseErr "alloc::string::String"
          "invalid Bincode2 data"))

/-- `Bincode2` at `T = Vec<u8>` (used by the Owner Index reads). -/
def vecU8Codec : Codec Bytes :=
  Codec.mk "alloc::vec::Vec<u8>"
    (fun s => Except.ok (encBytes s))
    (fun bs =>
      match readBytes bs with
      | some p => Except.ok p.1
      | none => Except.error (StdError.parseErr "alloc::vec::Vec<u8>"
          "invalid Bincode2 data"))

/-- `state.rs` `load`: get the bytes under `key`, failing with `NotFound`
carrying the record type's name when absent, then deserialize them. -/
def load {α : Type} (c : Codec α) (st : Storage) (key : Bytes) :
    Except StdError α :=
  match st key with
  | none => Except.error (StdError.notFound c.typeName)
  | some v => c.deserialize v

/-- `state.rs` `may_load`: absence is `Ok(None)`, presence deserializes. -/
def may_load {α : Type} (c : Codec α) (st : Storage) (key : Bytes) :
    Except StdError (Option α) :=
  match st key with
  | some v => (c.deserialize v).map some
  | none => Except.ok none

/-- `state.rs` `save`: serialize first, and only on success write the bytes
under `key`.  The pair returns the `StdResult<()>` and the store after the
call. -/
def save {α : Type} (c : Codec α) (st : Storage) (key : Bytes) (v : α) :
    Except StdError Unit × Storage :=
  match c.serialize v with
  | Except.error e => (Except.error e, st)
  | Except.ok bs => (Except.ok (), st.set key bs)

/-- `state.rs` `remove`: unconditional delete of `key`. -/
def remove (st : Storage) (key : Bytes) : Storage := Storage.del st key

/-- `cosmwasm_storage::to_length_prefixed`: two big-endian length bytes, then
the namespace. -/
def toLengthPrefixed (ns : Bytes) : Bytes :=
  ns.length / 256 % 256 :: ns.length % 256 :: ns

/-- The full key a prefixed store uses for `key` under namespace `ns`. -/
def nsKey (ns key : Bytes) : Bytes := toLengthPrefixed ns ++ key

/-- A `ReadonlyPrefixedStorage`/`PrefixedStorage` read view of the base
store. -/
def nsView (ns : Bytes) (st : Storage) : Storage := fun key => st (nsKey ns key)

/-- `save` addressed through a prefixed store over the base store. -/
def nsSave {α : Type} (c : Codec α) (ns : Bytes) (st : Storage) (key : Bytes)
    (v : α) : Except StdError Unit × Storage :=
  save c st (nsKey ns key) v

/-- `remove` addressed through a prefixed store over the base store. -/
def nsRemove (ns : Bytes) (st : Storage) (key : Bytes) : Storage :=
  remove st (nsKey ns key)

/-- `b"aliases"`. -/
def ALIASES_PREFIX : Bytes := [97, 108, 105, 97, 115, 101, 115]

/-- `b"addresses_aliases"`. -/
def ADDRESSES_ALIASES_PREFIX : Bytes :=
  [97, 100, 100, 114, 101, 115, 115, 101, 115, 95,
   97, 108, 105, 97, 115, 101, 115]

/-- `ReadonlyAliasesStorageImpl::get`: `may_load(...).ok().unwrap()`.  The
outer `Option` carries the `.unwrap()`: `none` is the panic taken when
`may_load` returned a deserialization error. -/
def ReadonlyAliasesStorageImpl.get (st : Storage) (key : Bytes) :
    Option (Option Alias) :=
  (may_load aliasCodec st key).toOption

/-- `AliasesReadonlyStorage::get_alias` (readonly view of the `"aliases"`
namespace). -/
def AliasesReadonlyStorage.get_alias (st : Storage) (key : Bytes) :
    Option (Option Alias) :=
  ReadonlyAliasesStorageImpl.get (nsView ALIASES_PREFIX st) key

/-- `AliasesStorage::get_alias` (mutable handle, same lookup path). -/
def AliasesStorage.get_alias (st : Storage) (key : Bytes) :
    Option (Option Alias) :=
  ReadonlyAliasesStorageImpl.get (nsView ALIASES_PREFIX st) key

/-- `AliasesStorage::remove_alias`. -/
def AliasesStorage.remove_alias (st : Storage) (key : Bytes) : Storage :=
  nsRemove ALIASES_PREFIX st key

/-- `AliasesStorage::set_alias`: `save(...).ok()` — the result of `save` is
discarded; only the storage effect remains. -/
def AliasesStorage.set_alias (st : Storage) (key : Bytes) (value : Alias) :
    Storage :=
  (nsSave aliasCodec ALIASES_PREFIX st key value).2

/-- `ReadonlyAddressesAliasesStorageImpl::get`: same `.ok().unwrap()` shape,
at `T = Vec<u8>`. -/
def ReadonlyAddressesAliasesStorageImpl.get (st : Storage) (key : Bytes) :
    Option (Option Bytes) :=
  (may_load vecU8Codec st key).toOption

/-- `AddressesAliasesReadonlyStorage::get_alias` (readonly view of the
`"addresses_aliases"` namespace); the Rust key is `&String`, read through
`key.as_bytes()`. -/
def AddressesAliasesReadonlyStorage.get_alias (st : Storage) (key : Bytes) :
    Option (Option Bytes) :=
  ReadonlyAddressesAliasesStorageImpl.get (nsView ADDRESSES_ALIASES_PREFIX st)
    key

/-- `AddressesAliasesStorage::get_alias` (mutable handle, same lookup
path). -/
def AddressesAliasesStorage.get_alias (st : Storage) (key : Bytes) :
    Option (Option Bytes) :=
  ReadonlyAddressesAliasesStorageImpl.get (nsView ADDRESSES_ALIASES_PREFIX st)
    key

/-- `AddressesAliasesStorage::remove_alias`. -/
def AddressesAliasesStorage.remove_alias (st : Storage) (key : Bytes) :
    Storage :=
  nsRemove ADDRESSES_ALIASES_PREFIX st key

/-- `AddressesAliasesStorage::set_alias`: writes the alias string (a Rust
`String`) under the address key, discarding the `save` result. -/
def AddressesAliasesStorage.set_alias (st : Storage) (key : Bytes)
    (value : Bytes) : Storage :=
  (nsSave stringCodec ADDRESSES_ALIASES_PREFIX st key value).2

/-- Width bound of a Rust `usize`/`u64` length: encodable lengths. -/
def fitsU64 (n : Nat) : Prop := n < 18446744073709551616

/-- A record whose string fields have Rust-representable lengths (every
`Vec`/`String` in Rust satisfies this; the bound only matters in the
model). -/
def aliasSizeOk (a : Alias) : Prop :=
  fitsU64 a.human_address.length ∧ ∀ s ∈ a.avatar_url, fitsU64 s.length

/-- Registry-level errors of the core operations described in the spec. -/
inductive RegistryError where
  | aliasTaken
  | addressAlreadyHasAlias
  | aliasNotFound
  | notOwner
  | panicked
  deriving DecidableEq, Repr

/-- Modelled from the spec: the Registry Core `create` handler is not under
`src/` (only `state.rs` and `msg.rs` are).  Spec section 4.4: derive the alias
key from the alias string and the address key from the caller, reject with
`AliasTaken` when the Alias Index already has an entry, reject with
`AddressAlreadyHasAlias` when the Owner Index already has one, then write the
Alias Index entry and then the Owner Index entry, returning the record.  An
index entry whose stored bytes do not decode surfaces as `panicked`, matching
the lookup path of `state.rs`. -/
def create (st : Storage) (caller aliasString : Bytes)
    (avatarUrl : Option Bytes) : Except RegistryError (Alias × Storage) :=
  match AliasesStorage.get_alias st aliasString with
  | none => Except.error RegistryError.panicked
  | some (some _) => Except.error RegistryError.aliasTaken
  | some none =>
    match AddressesAliasesStorage.get_alias st caller with
    | none => Except.error RegistryError.panicked
    | some (some _) => Except.error RegistryError.addressAlreadyHasAlias
    | some none =>
      let record := Alias.mk caller avatarUrl
      let st1 := AliasesStorage.set_alias st aliasString record
      let st2 := AddressesAliasesStorage.set_alias st1 caller aliasString
      Except.ok (record, st2)

/-- Modelled from the spec: the Registry Core `destroy` handler is not under
`src/`.  Spec section 4.4: look the alias up in the Alias Index, failing with
`AliasNotFound` when absent; fail with `NotOwner` when the stored owner is not
the caller; otherwise remove the Alias Index entry and then the Owner Index
entry keyed by the caller. -/
def destroy (st : Storage) (caller aliasString : Bytes) :
    Except RegistryError Storage :=
  match AliasesStorage.get_alias st aliasString with
  | none => Except.error RegistryError.panicked
  | some none => Except.error RegistryError.aliasNotFound
  | some (some record) =>
    if record.human_address = caller then
      let st1 := AliasesStorage.remove_alias st aliasString
      let st2 := AddressesAliasesStorage.remove_alias st1 caller
      Except.ok st2
    else Except.error RegistryError.notOwner

/-- Modelled from the spec: the states produced by sequences of successful
registry operations starting from empty storage.  The length bounds carry the
Rust-side fact that every `Vec`/`String` length fits in a `u64`. -/
inductive Reachable : Storage → Prop where
  | empty : Reachable emptyStorage
  | viaCreate (st st' : Storage) (caller aliasString : Bytes)
      (avatarUrl : Option Bytes) (record : Alias) (hst : Reachable st)
      (hc : fitsU64 caller.length) (ha : fitsU64 aliasString.length)
      (hav : ∀ s ∈ avatarUrl, fitsU64 s.length)
      (hstep : create st caller aliasString avatarUrl =
        Except.ok (record, st')) : Reachable st'
  | viaDestroy (st st' : Storage) (caller aliasString : Bytes)
      (hst : Reachable st)
      (hstep : destroy st caller aliasString = Except.ok st') : Reachable st'

/-- Bidirectional consistency of the two indexes (spec section 3,
invariants 1 and 2), stated through the lookup operations of `state.rs`. -/
def Inv (st : Storage) : Prop :=
  (∀ addr ak, AddressesAliasesStorage.get_alias st addr = some (some ak) →
    ∃ record, AliasesStorage.get_alias st ak = some (some record) ∧
      record.human_address = addr) ∧
  (∀ ak record, AliasesStorage.get_alias st ak = some (some record) →
    AddressesAliasesStorage.get_alias st record.human_address =
      some (some ak))

theorem readU64le_u64le (n : Nat) (rest : Bytes) :
    readU64le (u64le n ++ rest) = some (n % 18446744073709551616, rest) := by
  simp only [u64le, readU64le, List.cons_append, List.nil_append,
    Option.some.injEq, Prod.mk.injEq]
  exact ⟨by omega, trivial⟩

theorem readBytes_encBytes (s rest : Bytes) (h : fitsU64 s.length) :
    readBytes (encBytes s ++ rest) = some (s, rest) := by
  have hmod : s.length % 18446744073709551616 = s.length := Nat.mod_eq_of_lt h
  simp only [encBytes, List.append_assoc, readBytes, readU64le_u64le, hmod]
  rw [if_pos]
  · rw [List.take_left, List.drop_left]
  · simp

theorem readOptBytes_encOptBytes (o : Option Bytes) (rest : Bytes)
    (h : ∀ s ∈ o, fitsU64 s.length) :
    readOptBytes (encOptBytes o ++ rest) = some (o, rest) := by
  cases o with
  | none => rfl
  | some s =>
    have hs : fitsU64 s.length := h s rfl
    simp [encOptBytes, readOptBytes, readBytes_encBytes s rest hs]

theorem readAlias_encAlias (a : Alias) (rest : Bytes) (h : aliasSizeOk a) :
    readAlias (encAlias a ++ rest) = some (a, rest) := by
  obtain ⟨h1, h2⟩ := h
  simp only [encAlias, List.append_assoc, readAlias,
    readBytes_encBytes a.human_address _ h1, readOptBytes_encOptBytes _ _ h2]

theorem nsKey_inj (ns k k' : Bytes) : nsKey ns k = nsKey ns k' ↔ k = k' := by
  unfold nsKey
  exact iff_of_eq (List.append_cancel_left_eq _ _ _)

theorem tlp_aliases :
    toLengthPrefixed ALIASES_PREFIX = 0 :: 7 :: ALIASES_PREFIX := by decide

theorem tlp_addresses : toLengthPrefixed ADDRESSES_ALIASES_PREFIX =
    0 :: 17 :: ADDRESSES_ALIASES_PREFIX := by decide

theorem nsKey_cross_ne (k k' : Bytes) :
    nsKey ALIASES_PREFIX k ≠ nsKey ADDRESSES_ALIASES_PREFIX k' := by
  unfold nsKey
  rw [tlp_aliases, tlp_addresses]
  intro h
  simp only [List.cons_append, List.cons.injEq] at h
  exact absurd h.2.1 (by decide)

theorem readAlias_encAlias_nil (a : Alias) (h : aliasSizeOk a) :
    readAlias (encAlias a) = some (a, []) := by
  have := readAlias_encAlias a [] h
  simpa using this

theorem readBytes_encBytes_nil (s : Bytes) (h : fitsU64 s.length) :
    readBytes (encBytes s) = some (s, []) := by
  have := readBytes_encBytes s [] h
  simpa using this

theorem aliases_get_set_self (st : Storage) (k : Bytes) (v : Alias)
    (h : aliasSizeOk v) :
    AliasesStorage.get_alias (AliasesStorage.set_alias st k v) k =
      some (some v) := by
  simp [AliasesStorage.get_alias, AliasesStorage.set_alias,
    ReadonlyAliasesStorageImpl.get, may_load, nsView, nsSave, save,
    aliasCodec, Storage.set, readAlias_encAlias_nil v h, Except.map,
    Except.toOption]

theorem aliases_get_set_other (st : Storage) (k k' : Bytes) (v : Alias)
    (h : k' ≠ k) :
    AliasesStorage.get_alias (AliasesStorage.set_alias st k v) k' =
      AliasesStorage.get_alias st k' := by
  have hk : nsKey ALIASES_PREFIX k' ≠ nsKey ALIASES_PREFIX k := by
    simpa [nsKey_inj] using h
  simp [AliasesStorage.get_alias, AliasesStorage.set_alias,
    ReadonlyAliasesStorageImpl.get, may_load, nsView, nsSave, save,
    aliasCodec, Storage.set, hk]

theorem aliases_get_remove_self (st : Storage) (k : Bytes) :
    AliasesStorage.get_alias (AliasesStorage.remove_alias st k) k =
      some none := by
  simp [AliasesStorage.get_alias, AliasesStorage.remove_alias,
    ReadonlyAliasesStorageImpl.get, may_load, nsView, nsRemove, remove,
    Storage.del, Except.toOption]

theorem aliases_get_remove_other (st : Storage) (k k' : Bytes) (h : k' ≠ k) :
    AliasesStorage.get_alias (AliasesStorage.remove_alias st k) k' =
      AliasesStorage.get_alias st k' := by
  have hk : nsKey ALIASES_PREFIX k' ≠ nsKey ALIASES_PREFIX k := by
    simpa [nsKey_inj] using h
  simp [AliasesStorage.get_alias, AliasesStorage.remove_alias,
    ReadonlyAliasesStorageImpl.get, may_load, nsView, nsRemove, remove,
    Storage.del, hk]

theorem addresses_get_set_self (st : Storage) (k s : Bytes)
    (h : fitsU64 s.length) :
    AddressesAliasesStorage.get_alias
        (AddressesAliasesStorage.set_alias st k s) k = some (some s) := by
  simp [AddressesAliasesStorage.get_alias, AddressesAliasesStorage.set_alias,
    ReadonlyAddressesAliasesStorageImpl.get, may_load, nsView, nsSave, save,
    stringCodec, vecU8Codec, Storage.set, readBytes_encBytes_nil s h,
    Except.map, Except.toOption]

theorem addresses_get_set_other (st : Storage) (k k' s : Bytes)
    (h : k' ≠ k) :
    AddressesAliasesStorage.get_alias
        (AddressesAliasesStorage.set_alias st k s) k' =
      AddressesAliasesStorage.get_alias st k' := by
  have hk : nsKey ADDRESSES_ALIASES_PREFIX k' ≠
      nsKey ADDRESSES_ALIASES_PREFIX k := by
    simpa [nsKey_inj] using h
  simp [AddressesAliasesStorage.get_alias, AddressesAliasesStorage.set_alias,
    ReadonlyAddressesAliasesStorageImpl.get, may_load, nsView, nsSave, save,
    stringCodec, Storage.set, hk]

theorem addresses_get_remove_self (st : Storage) (k : Bytes) :
    AddressesAliasesStorage.get_alias
        (AddressesAliasesStorage.remove_alias st k) k = some none := by
  simp [AddressesAliasesStorage.get_alias,
    AddressesAliasesStorage.remove_alias,
    ReadonlyAddressesAliasesStorageImpl.get, may_load, nsView, nsRemove,
    remove, Storage.del, Except.toOption]

theorem addresses_get_remove_other (st : Storage) (k k' : Bytes)
    (h : k' ≠ k) :
    AddressesAliasesStorage.get_alias
        (AddressesAliasesStorage.remove_alias st k) k' =
      AddressesAliasesStorage.get_alias st k' := by
  have hk : nsKey ADDRESSES_ALIASES_PREFIX k' ≠
      nsKey ADDRESSES_ALIASES_PREFIX k := by
    simpa [nsKey_inj] using h
  simp [AddressesAliasesStorage.get_alias,
    AddressesAliasesStorage.remove_alias,
    ReadonlyAddressesAliasesStorageImpl.get, may_load, nsView, nsRemove,
    remove, Storage.del, hk]

theorem addresses_get_aliases_set (st : Storage) (k k' : Bytes) (v : Alias) :
    AddressesAliasesStorage.get_alias (AliasesStorage.set_alias st k v) k' =
      AddressesAliasesStorage.get_alias st k' := by
  have hk : nsKey ADDRESSES_ALIASES_PREFIX k' ≠ nsKey ALIASES_PREFIX k :=
    fun h => nsKey_cross_ne k k' h.symm
  simp [AddressesAliasesStorage.get_alias, AliasesStorage.set_alias,
    ReadonlyAddressesAliasesStorageImpl.get, may_load, nsView, nsSave, save,
    aliasCodec, Storage.set, hk]

theorem addresses_get_aliases_remove (st : Storage) (k k' : Bytes) :
    AddressesAliasesStorage.get_alias (AliasesStorage.remove_alias st k) k' =
      AddressesAliasesStorage.get_alias st k' := by
  have hk : nsKey ADDRESSES_ALIASES_PREFIX k' ≠ nsKey ALIASES_PREFIX k :=
    fun h => nsKey_cross_ne k k' h.symm
  simp [AddressesAliasesStorage.get_alias, AliasesStorage.remove_alias,
    ReadonlyAddressesAliasesStorageImpl.get, may_load, nsView, nsRemove,
    remove, Storage.del, hk]

theorem aliases_get_addresses_set (st : Storage) (k k' s : Bytes) :
    AliasesStorage.get_alias (AddressesAliasesStorage.set_alias st k s) k' =
      AliasesStorage.get_alias st k' := by
  have hk : nsKey ALIASES_PREFIX k' ≠ nsKey ADDRESSES_ALIASES_PREFIX k :=
    nsKey_cross_ne k' k
  simp [AliasesStorage.get_alias, AddressesAliasesStorage.set_alias,
    ReadonlyAliasesStorageImpl.get, may_load, nsView, nsSave, save,
    stringCodec, Storage.set, hk]

theorem aliases_get_addresses_remove (st : Storage) (k k' : Bytes) :
    AliasesStorage.get_alias (AddressesAliasesStorage.remove_alias st k) k' =
      AliasesStorage.get_alias st k' := by
  have hk : nsKey ALIASES_PREFIX k' ≠ nsKey ADDRESSES_ALIASES_PREFIX k :=
    nsKey_cross_ne k' k
  simp [AliasesStorage.get_alias, AddressesAliasesStorage.remove_alias,
    ReadonlyAliasesStorageImpl.get, may_load, nsView, nsRemove, remove,
    Storage.del, hk]

theorem aliases_get_empty (k : Bytes) :
    AliasesStorage.get_alias emptyStorage k = some none := rfl

theorem addresses_get_empty (k : Bytes) :
    AddressesAliasesStorage.get_alias emptyStorage k = some none := rfl

theorem inv_empty : Inv emptyStorage := by
  constructor
  · intro addr ak hx
    rw [addresses_get_empty] at hx
    simp at hx
  · intro ak record hx
    rw [aliases_get_empty] at hx
    simp at hx

theorem create_preserves_inv (st st' : Storage) (caller aliasString : Bytes)
    (avatarUrl : Option Bytes) (record : Alias)
    (hc : fitsU64 caller.length) (ha : fitsU64 aliasString.length)
    (hav : ∀ s ∈ avatarUrl, fitsU64 s.length)
    (hstep : create st caller aliasString avatarUrl =
      Except.ok (record, st'))
    (hinv : Inv st) : Inv st' := by
  obtain ⟨inv1, inv2⟩ := hinv
  cases hA : AliasesStorage.get_alias st aliasString with
  | none => rw [create, hA] at hstep; simp at hstep
  | some oa =>
    cases oa with
    | some x => rw [create, hA] at hstep; simp at hstep
    | none =>
      cases hB : AddressesAliasesStorage.get_alias st caller with
      | none => rw [create, hA, hB] at hstep; simp at hstep
      | some ob =>
        cases ob with
        | some x => rw [create, hA, hB] at hstep; simp at hstep
        | none =>
          rw [create, hA, hB] at hstep
          simp only [Except.ok.injEq, Prod.mk.injEq] at hstep
          obtain ⟨hrec, hst'⟩ := hstep
          have hsize : aliasSizeOk (Alias.mk caller avatarUrl) := ⟨hc, hav⟩
          constructor
          · intro addr ak hB'
            by_cases haddr : addr = caller
            · subst haddr
              have hself : AddressesAliasesStorage.get_alias st' addr =
                  some (some aliasString) := by
                rw [← hst']
                exact addresses_get_set_self _ addr aliasString ha
              rw [hself] at hB'
              have hak : ak = aliasString := by simpa using hB'.symm
              subst hak
              refine ⟨Alias.mk addr avatarUrl, ?_, rfl⟩
              rw [← hst', aliases_get_addresses_set]
              exact aliases_get_set_self st ak (Alias.mk addr avatarUrl) hsize
            · have h1 : AddressesAliasesStorage.get_alias st' addr =
                  AddressesAliasesStorage.get_alias st addr := by
                rw [← hst', addresses_get_set_other _ _ _ _ haddr,
                  addresses_get_aliases_set]
              rw [h1] at hB'
              obtain ⟨rec2, hrec2, hha⟩ := inv1 addr ak hB'
              have hak : ak ≠ aliasString := by
                intro h
                rw [h, hA] at hrec2
                simp at hrec2
              have h2 : AliasesStorage.get_alias st' ak =
                  AliasesStorage.get_alias st ak := by
                rw [← hst', aliases_get_addresses_set,
                  aliases_get_set_other _ _ _ _ hak]
              rw [h2]
              exact ⟨rec2, hrec2, hha⟩
          · intro ak rec2 hA'
            have h0 : AliasesStorage.get_alias st' ak =
                AliasesStorage.get_alias
                  (AliasesStorage.set_alias st aliasString
                    (Alias.mk caller avatarUrl)) ak := by
              rw [← hst', aliases_get_addresses_set]
            by_cases hak : ak = aliasString
            · subst hak
              rw [h0, aliases_get_set_self _ _ _ hsize] at hA'
              have : rec2 = Alias.mk caller avatarUrl := by simpa using hA'.symm
              subst this
              rw [← hst']
              exact addresses_get_set_self _ caller ak ha
            · rw [h0, aliases_get_set_other _ _ _ _ hak] at hA'
              have hB0 := inv2 ak rec2 hA'
              have hha : rec2.human_address ≠ caller := by
                intro h
                rw [h, hB] at hB0
                simp at hB0
              have h1 : AddressesAliasesStorage.get_alias st'
                  rec2.human_address =
                  AddressesAliasesStorage.get_alias st rec2.human_address := by
                rw [← hst', addresses_get_set_other _ _ _ _ hha,
                  addresses_get_aliases_set]
              rw [h1]
              exact hB0

theorem destroy_preserves_inv (st st' : Storage) (caller aliasString : Bytes)
    (hstep : destroy st caller aliasString = Except.ok st')
    (hinv : Inv st) : Inv st' := by
  obtain ⟨inv1, inv2⟩ := hinv
  cases hA : AliasesStorage.get_alias st aliasString with
  | none => rw [destroy, hA] at hstep; simp at hstep
  | some oa =>
    cases oa with
    | none => rw [destroy, hA] at hstep; simp at hstep
    | some record0 =>
      rw [destroy, hA] at hstep
      dsimp only at hstep
      by_cases hown : record0.human_address = caller
      · rw [if_pos hown] at hstep
        simp only [Except.ok.injEq] at hstep
        constructor
        · intro addr ak hB'
          by_cases haddr : addr = caller
          · subst haddr
            have : AddressesAliasesStorage.get_alias st' addr = some none := by
              rw [← hstep]
              exact addresses_get_remove_self _ addr
            rw [this] at hB'
            simp at hB'
          · have h1 : AddressesAliasesStorage.get_alias st' addr =
                AddressesAliasesStorage.get_alias st addr := by
              rw [← hstep, addresses_get_remove_other _ _ _ haddr,
                addresses_get_aliases_remove]
            rw [h1] at hB'
            obtain ⟨rec2, hrec2, hha⟩ := inv1 addr ak hB'
            have hak : ak ≠ aliasString := by
              intro h
              rw [h, hA] at hrec2
              have : rec2 = record0 := by simpa using hrec2.symm
              subst this
              exact haddr (hha.symm.trans hown)
            have h2 : AliasesStorage.get_alias st' ak =
                AliasesStorage.get_alias st ak := by
              rw [← hstep, aliases_get_addresses_remove,
                aliases_get_remove_other _ _ _ hak]
            rw [h2]
            exact ⟨rec2, hrec2, hha⟩
        · intro ak rec2 hA'
          have h0 : AliasesStorage.get_alias st' ak =
              AliasesStorage.get_alias
                (AliasesStorage.remove_alias st aliasString) ak := by
            rw [← hstep, aliases_get_addresses_remove]
          by_cases hak : ak = aliasString
          · subst hak
            rw [h0, aliases_get_remove_self] at hA'
            simp at hA'
          · rw [h0, aliases_get_remove_other _ _ _ hak] at hA'
            have hB0 := inv2 ak rec2 hA'
            have hBa := inv2 aliasString record0 hA
            have hha : rec2.human_address ≠ caller := by
              intro h
              rw [h] at hB0
              rw [hown] at hBa
              rw [hB0] at hBa
              exact hak (by simpa using hBa)
            have h1 : AddressesAliasesStorage.get_alias st'
                rec2.human_address =
                AddressesAliasesStorage.get_alias st rec2.human_address := by
              rw [← hstep, addresses_get_remove_other _ _ _ hha,
                addresses_get_aliases_remove]
            rw [h1]
            exact hB0
      · rw [if_neg hown] at hstep
        simp at hstep

/-- C1: every state produced by a sequence of successful registry operations
from empty storage satisfies the bidirectional index consistency: each Owner
Index entry `addr → ak` has an Alias Index entry under `ak` whose
`human_address` is `addr`, and each Alias Index entry's owner maps back to its
alias key. -/
theorem reachable_states_bidirectionally_consistent (st : Storage)
    (h : Reachable st) : Inv st := by
  induction h with
  | empty => exact inv_empty
  | viaCreate st st' caller aliasString avatarUrl record hst hc ha hav hstep
      ih =>
    exact create_preserves_inv st st' caller aliasString avatarUrl record hc
      ha hav hstep ih
  | viaDestroy st st' caller aliasString hst hstep ih =>
    exact destroy_preserves_inv st st' caller aliasString hstep ih

theorem reachable_states_bidirectionally_consistent_witness :
    Inv (AddressesAliasesStorage.set_alias
      (AliasesStorage.set_alias emptyStorage [2] (Alias.mk [1] none))
      [1] [2]) :=
  reachable_states_bidirectionally_consistent _
    (Reachable.viaCreate emptyStorage _ [1] [2] none (Alias.mk [1] none)
      Reachable.empty (by simp [fitsU64]) (by simp [fitsU64]) (by simp) rfl)

/-- C2: writing an alias string under an address through the Owner Index and
reading it back returns `Some` of exactly the raw alias-key bytes, through the
mutable and the read-only lookup alike, even though the write serializes a
`String` and the read deserializes a `Vec<u8>`. -/
theorem owner_index_stores_raw_alias_bytes (st : Storage) (a s : Bytes)
    (h : fitsU64 s.length) :
    AddressesAliasesStorage.get_alias
        (AddressesAliasesStorage.set_alias st a s) a = some (some s) ∧
    AddressesAliasesReadonlyStorage.get_alias
        (AddressesAliasesStorage.set_alias st a s) a = some (some s) :=
  ⟨addresses_get_set_self st a s h, addresses_get_set_self st a s h⟩

theorem owner_index_stores_raw_alias_bytes_witness :
    AddressesAliasesStorage.get_alias
        (AddressesAliasesStorage.set_alias emptyStorage [1] [2, 3]) [1] =
      some (some [2, 3]) ∧
    AddressesAliasesReadonlyStorage.get_alias
        (AddressesAliasesStorage.set_alias emptyStorage [1] [2, 3]) [1] =
      some (some [2, 3]) :=
  owner_index_stores_raw_alias_bytes emptyStorage [1] [2, 3]
    (by simp [fitsU64])

/-- C3: for both record types used by the indexes (`Alias` and `String`),
`save` succeeds and a subsequent `load` of the same key returns `Ok` of the
saved value: the Bincode2 encoding round-trips through the adapter. -/
theorem save_load_roundtrip (st : Storage) (k : Bytes) (a : Alias) (s : Bytes)
    (h1 : aliasSizeOk a) (h2 : fitsU64 s.length) :
    ((save aliasCodec st k a).1 = Except.ok () ∧
      load aliasCodec (save aliasCodec st k a).2 k = Except.ok a) ∧
    ((save stringCodec st k s).1 = Except.ok () ∧
      load stringCodec (save stringCodec st k s).2 k = Except.ok s) := by
  refine ⟨⟨rfl, ?_⟩, ⟨rfl, ?_⟩⟩
  · simp [save, load, aliasCodec, Storage.set, readAlias_encAlias_nil a h1]
  · simp [save, load, stringCodec, Storage.set, readBytes_encBytes_nil s h2]

theorem save_load_roundtrip_witness :
    ((save aliasCodec emptyStorage [9] (Alias.mk [1] (some [4]))).1 =
        Except.ok () ∧
      load aliasCodec
          (save aliasCodec emptyStorage [9] (Alias.mk [1] (some [4]))).2 [9] =
        Except.ok (Alias.mk [1] (some [4]))) ∧
    ((save stringCodec emptyStorage [9] [5, 6]).1 = Except.ok () ∧
      load stringCodec (save stringCodec emptyStorage [9] [5, 6]).2 [9] =
        Except.ok [5, 6]) :=
  save_load_roundtrip emptyStorage [9] (Alias.mk [1] (some [4])) [5, 6]
    (by constructor <;> simp [fitsU64, aliasSizeOk]) (by simp [fitsU64])

/-- C4: the code does not surface undecodable stored bytes as an error value:
`ReadonlyAliasesStorageImpl::get` and
`ReadonlyAddressesAliasesStorageImpl::get` run `may_load(...).ok().unwrap()`,
which panics when the stored bytes are not a valid Bincode2 encoding.  On a
store holding the single byte `1` under the looked-up key, every lookup
variant panics (the outer `none` of the model). -/
theorem lookup_panics_on_undecodable_bytes :
    AliasesStorage.get_alias
        (Storage.set emptyStorage (nsKey ALIASES_PREFIX [7]) [1]) [7] =
      none ∧
    AliasesReadonlyStorage.get_alias
        (Storage.set emptyStorage (nsKey ALIASES_PREFIX [7]) [1]) [7] =
      none ∧
    AddressesAliasesStorage.get_alias
        (Storage.set emptyStorage (nsKey ADDRESSES_ALIASES_PREFIX [7]) [1])
        [7] = none ∧
    AddressesAliasesReadonlyStorage.get_alias
        (Storage.set emptyStorage (nsKey ADDRESSES_ALIASES_PREFIX [7]) [1])
        [7] = none :=
  ⟨rfl, rfl, rfl, rfl⟩

/-- C5: a missing key makes `load` fail with `NotFound` carrying the record
type's name, while `may_load` succeeds with `Ok(None)`. -/
theorem load_notfound_mayload_none {α : Type} (c : Codec α) (st : Storage)
    (k : Bytes) (h : st k = none) :
    load c st k = Except.error (StdError.notFound c.typeName) ∧
    may_load c st k = Except.ok none := by
  constructor <;> simp [load, may_load, h]

theorem load_notfound_mayload_none_witness :
    load aliasCodec emptyStorage [1, 2] =
      Except.error (StdError.notFound "address_alias::state::Alias") ∧
    may_load aliasCodec emptyStorage [1, 2] = Except.ok none :=
  load_notfound_mayload_none aliasCodec emptyStorage [1, 2] rfl

/-- C6: `save` returns an error exactly when serialization fails, leaves the
store untouched in that case, and otherwise stores the serialized bytes under
the key. -/
theorem save_error_iff_serialize_error {α : Type} (c : Codec α) (st : Storage)
    (k : Bytes) (v : α) :
    (∀ e, (save c st k v).1 = Except.error e ↔
      c.serialize v = Except.error e) ∧
    (∀ e, c.serialize v = Except.error e → (save c st k v).2 = st) ∧
    (∀ bs, c.serialize v = Except.ok bs →
      (save c st k v).1 = Except.ok () ∧
      (save c st k v).2 = Storage.set st k bs) := by
  refine ⟨fun e => ?_, fun e he => ?_, fun bs hb => ?_⟩
  · cases hs : c.serialize v <;> simp [save, hs]
  · simp [save, he]
  · simp [save, hb]

/-- C7: neither `set_alias` reports failure: each returns only the updated
store, keeping exactly the storage component of `save` and discarding its
result with `.ok()`; whenever that discarded result is an error, the store is
unchanged, so a caller cannot tell a failed encode from a successful
write. -/
theorem set_alias_discards_save_result :
    (∀ st k v, AliasesStorage.set_alias st k v =
      (nsSave aliasCodec ALIASES_PREFIX st k v).2) ∧
    (∀ st k s, AddressesAliasesStorage.set_alias st k s =
      (nsSave stringCodec ADDRESSES_ALIASES_PREFIX st k s).2) ∧
    (∀ (α : Type) (c : Codec α) ns st k v e,
      (nsSave c ns st k v).1 = Except.error e → (nsSave c ns st k v).2 = st) := by
  refine ⟨fun _ _ _ => rfl, fun _ _ _ => rfl, ?_⟩
  intro α c ns st k v e h
  unfold nsSave save at h ⊢
  cases hs : c.serialize v <;> simp [hs] at h ⊢

/-- C8: the read-only storage variants answer lookups exactly as the mutable
variants do, for both indexes. -/
theorem readonly_get_eq_mutable_get :
    (∀ st k, AliasesReadonlyStorage.get_alias st k =
      AliasesStorage.get_alias st k) ∧
    (∀ st k, AddressesAliasesReadonlyStorage.get_alias st k =
      AddressesAliasesStorage.get_alias st k) :=
  ⟨fun _ _ => rfl, fun _ _ => rfl⟩

/-- C9: no Alias Index key and Owner Index key resolve to the same underlying
storage key, and in consequence writes or removals through either index leave
every lookup through the other index unchanged. -/
theorem namespaces_never_collide :
    (∀ k k', nsKey ALIASES_PREFIX k ≠ nsKey ADDRESSES_ALIASES_PREFIX k') ∧
    (∀ st k v k', AddressesAliasesStorage.get_alias
      (AliasesStorage.set_alias st k v) k' =
      AddressesAliasesStorage.get_alias st k') ∧
    (∀ st k k', AddressesAliasesStorage.get_alias
      (AliasesStorage.remove_alias st k) k' =
      AddressesAliasesStorage.get_alias st k') ∧
    (∀ st k s k', AliasesStorage.get_alias
      (AddressesAliasesStorage.set_alias st k s) k' =
      AliasesStorage.get_alias st k') ∧
    (∀ st k k', AliasesStorage.get_alias
      (AddressesAliasesStorage.remove_alias st k) k' =
      AliasesStorage.get_alias st k') :=
  ⟨nsKey_cross_ne,
   fun st k v k' => addresses_get_aliases_set st k k' v,
   fun st k k' => addresses_get_aliases_remove st k k',
   fun st k s k' => aliases_get_addresses_set st k k' s,
   fun st k k' => aliases_get_addresses_remove st k k'⟩

/-- C10: `remove_alias` always succeeds (it returns only a store, with no
error channel); afterwards the lookup of the removed key answers `None`, every
other underlying key keeps its stored value, and removing an absent key
leaves the whole store unchanged — for both indexes. -/
theorem remove_alias_unconditional (st : Storage) (k : Bytes) :
    (AliasesStorage.get_alias (AliasesStorage.remove_alias st k) k =
      some none ∧
    (∀ k', k' ≠ k → AliasesStorage.get_alias
      (AliasesStorage.remove_alias st k) k' = AliasesStorage.get_alias st k') ∧
    (∀ bk, bk ≠ nsKey ALIASES_PREFIX k →
      AliasesStorage.remove_alias st k bk = st bk) ∧
    (st (nsKey ALIASES_PREFIX k) = none →
      AliasesStorage.remove_alias st k = st)) ∧
    (AddressesAliasesStorage.get_alias
        (AddressesAliasesStorage.remove_alias st k) k = some none ∧
    (∀ k', k' ≠ k → AddressesAliasesStorage.get_alias
      (AddressesAliasesStorage.remove_alias st k) k' =
      AddressesAliasesStorage.get_alias st k') ∧
    (∀ bk, bk ≠ nsKey ADDRESSES_ALIASES_PREFIX k →
      AddressesAliasesStorage.remove_alias st k bk = st bk) ∧
    (st (nsKey ADDRESSES_ALIASES_PREFIX k) = none →
      AddressesAliasesStorage.remove_alias st k = st)) := by
  refine ⟨⟨aliases_get_remove_self st k, ?_, ?_, ?_⟩,
    ⟨addresses_get_remove_self st k, ?_, ?_, ?_⟩⟩
  · intro k' hk
    exact aliases_get_remove_other st k k' hk
  · intro bk hbk
    simp [AliasesStorage.remove_alias, nsRemove, remove, Storage.del, hbk]
  · intro habs
    funext bk
    by_cases hbk : bk = nsKey ALIASES_PREFIX k
    · subst hbk
      simp [AliasesStorage.remove_alias, nsRemove, remove, Storage.del, habs]
    · simp [AliasesStorage.remove_alias, nsRemove, remove, Storage.del, hbk]
  · intro k' hk
    exact addresses_get_remove_other st k k' hk
  · intro bk hbk
    simp [AddressesAliasesStorage.remove_alias, nsRemove, remove,
      Storage.del, hbk]
  · intro habs
    funext bk
    by_cases hbk : bk = nsKey ADDRESSES_ALIASES_PREFIX k
    · subst hbk
      simp [AddressesAliasesStorage.remove_alias, nsRemove, remove,
        Storage.del, habs]
    · simp [AddressesAliasesStorage.remove_alias, nsRemove, remove,
        Storage.del, hbk]

end AddressAlias
